import Mathlib

/-!
Verification of the Rectified Flow 2D-toy repository
(`examples/train_2d_toys.ipynb` and the library operations it drives).

Samples are fixed-dimension real vectors; we embed them as lists of
rationals (`Vec`), batches as lists of vectors.  Operations present in
the notebook source are translated directly; library operations that the
notebook only calls (`RectifiedFlow.get_loss`, `EulerSampler.sample_loop`,
the interpolation scheme's forward pass) are modelled from the spec, as
marked in their doc comments.
-/

namespace RectFlow

/-- A sample: a fixed-dimension real vector, embedded as a list of rationals. -/
abbrev Vec := List ℚ

/-- A batch of samples. -/
abbrev Batch := List Vec

/-- Pointwise vector addition. -/
def vecAdd (x y : Vec) : Vec := List.zipWith (· + ·) x y

/-- Pointwise vector subtraction. -/
def vecSub (x y : Vec) : Vec := List.zipWith (· - ·) x y

/-- Scalar multiplication of a vector. -/
def vecSMul (c : ℚ) (x : Vec) : Vec := x.map (fun a => c * a)

/-- Squared L2 norm of a vector. -/
def sqNorm (x : Vec) : ℚ := (x.map (fun a => a * a)).sum

/-- The straight interpolation computed in the notebook cell
`x_t_uppper = (1 - t) * x_0_upper + t * x_1_upper`:
pointwise `(1 - t) * x0 + t * x1`. -/
def straight_xt (t : ℚ) (x0 x1 : Vec) : Vec :=
  List.zipWith (fun a b => (1 - t) * a + t * b) x0 x1

/-- Schedule coefficient alpha for the straight scheme: alpha t = t. -/
def straightAlpha (t : ℚ) : ℚ := t

/-- Schedule coefficient beta for the straight scheme: beta t = 1 - t. -/
def straightBeta (t : ℚ) : ℚ := 1 - t

/-- Time derivative of alpha for the straight scheme. -/
def straightDAlpha (_ : ℚ) : ℚ := 1

/-- Time derivative of beta for the straight scheme. -/
def straightDBeta (_ : ℚ) : ℚ := 0 - 1

/-- Modelled from the spec: the library's straight interpolation scheme
(its class is not in `src/`; the notebook selects it by the string key
"straight").  Given same-shape `x0`, `x1` and a time `t`, returns
`(Xt, dXt)` with `Xt = alpha t * x1 + beta t * x0` and
`dXt = alpha' t * x1 + beta' t * x0`, with `alpha t = t`, `beta t = 1 - t`. -/
def interpStraight (t : ℚ) (x0 x1 : Vec) : Vec × Vec :=
  (List.zipWith (fun a b => straightBeta t * a + straightAlpha t * b) x0 x1,
   List.zipWith (fun a b => straightDBeta t * a + straightDAlpha t * b) x0 x1)

theorem zipWith_left_id (f : ℚ → ℚ → ℚ) (hf : ∀ a b, f a b = a) :
    ∀ (x y : Vec), x.length = y.length → List.zipWith f x y = x := by
  intro x
  induction x with
  | nil => intro y _; simp
  | cons a x ih =>
    intro y hy
    cases y with
    | nil => simp at hy
    | cons b y =>
      simp only [List.zipWith, hf]
      simp only [List.length_cons, Nat.succ_inj] at hy
      rw [ih y hy]

theorem zipWith_right_id (f : ℚ → ℚ → ℚ) (hf : ∀ a b, f a b = b) :
    ∀ (x y : Vec), x.length = y.length → List.zipWith f x y = y := by
  intro x
  induction x with
  | nil =>
    intro y hy
    cases y with
    | nil => simp
    | cons b y => simp at hy
  | cons a x ih =>
    intro y hy
    cases y with
    | nil => simp at hy
    | cons b y =>
      simp only [List.zipWith, hf]
      simp only [List.length_cons, Nat.succ_inj] at hy
      rw [ih y hy]

theorem zipWith_flip (f : ℚ → ℚ → ℚ) :
    ∀ (x y : Vec), List.zipWith f x y = List.zipWith (fun b a => f a b) y x := by
  intro x
  induction x with
  | nil => intro y; cases y <;> simp
  | cons a x ih =>
    intro y
    cases y with
    | nil => simp
    | cons b y => simp only [List.zipWith]; rw [ih y]

/-- C2: for same-shape samples `x0`, `x1`, the straight interpolation of the
notebook satisfies `Xt = x0` exactly at `t = 0` and `Xt = x1` exactly at
`t = 1` (boundary property). -/
theorem straight_xt_boundary (x0 x1 : Vec) (hlen : x0.length = x1.length) :
    straight_xt 0 x0 x1 = x0 ∧ straight_xt 1 x0 x1 = x1 := by
  constructor
  · exact zipWith_left_id _ (fun a b => by ring) x0 x1 hlen
  · exact zipWith_right_id _ (fun a b => by ring) x0 x1 hlen

/-- Witness for C2 at a concrete coupling. -/
theorem straight_xt_boundary_witness :
    straight_xt 0 [(1 : ℚ), 2] [3, 5] = [(1 : ℚ), 2] ∧
    straight_xt 1 [(1 : ℚ), 2] [3, 5] = [3, 5] :=
  straight_xt_boundary [(1 : ℚ), 2] [3, 5] (by decide)

theorem interpStraight_snd (t : ℚ) (x0 x1 : Vec) :
    (interpStraight t x0 x1).2 = vecSub x1 x0 := by
  unfold interpStraight vecSub
  simp only [straightDBeta, straightDAlpha]
  rw [zipWith_flip]
  congr 1
  funext b a
  ring

/-- C3: for every time `t` and samples `x0`, `x1`, the straight scheme's
returned derivative `dXt` equals `x1 - x0`, independent of the value of `t`. -/
theorem interpStraight_deriv_const (t : ℚ) (x0 x1 : Vec) :
    (interpStraight t x0 x1).2 = vecSub x1 x0 :=
  interpStraight_snd t x0 x1

/-- Modelled from the spec: one explicit Euler step of the sampler
(`EulerSampler` is not in `src/`; the notebook only calls it).
`X_next = X + v(X, t_k) * Dt` with `Dt = 1/N` and `t_k = k/N`. -/
def eulerStep (v : Vec → ℚ → Vec) (N : ℕ) (k : ℕ) (x : Vec) : Vec :=
  vecAdd x (vecSMul (1 / (N : ℚ)) (v x ((k : ℚ) / (N : ℚ))))

/-- Modelled from the spec: the state of the Euler sampler after `k` steps
of the `N`-step uniform schedule, starting from `x0` at `t = 0`. -/
def eulerState (v : Vec → ℚ → Vec) (N : ℕ) (x0 : Vec) : ℕ → Vec
  | 0 => x0
  | k + 1 => eulerStep v N k (eulerState v N x0 k)

/-- Modelled from the spec: the trajectory recorded by one `sample_loop`
call for a single sample: the `N + 1` states at time indices `0..N`. -/
def sampleLoopStates (v : Vec → ℚ → Vec) (N : ℕ) (x0 : Vec) : List Vec :=
  (List.range (N + 1)).map (eulerState v N x0)

/-- Modelled from the spec: the trajectory recorded by a batched
`sample_loop` call (the `.trajectories` list of the code): entry `k` is the
batch of per-sample states after `k` Euler steps. -/
def batchTraj (v : Vec → ℚ → Vec) (N : ℕ) (b : Batch) : List Batch :=
  (List.range (N + 1)).map (fun k => b.map (fun x => eulerState v N x k))

theorem vecAdd_vecSub :
    ∀ (x y : Vec), x.length = y.length → vecAdd x (vecSub y x) = y := by
  intro x
  induction x with
  | nil =>
    intro y hy
    cases y with
    | nil => simp [vecAdd, vecSub]
    | cons b y => simp at hy
  | cons a x ih =>
    intro y hy
    cases y with
    | nil => simp at hy
    | cons b y =>
      simp only [List.length_cons, Nat.succ_inj] at hy
      simp only [vecAdd, vecSub, List.zipWith] at ih ⊢
      rw [ih y hy]
      norm_num

theorem head?_map_range (f : ℕ → α) (n : ℕ) :
    (((List.range (n + 1)).map f)).head? = some (f 0) := by
  have h : List.range (n + 1) = 0 :: (List.range n).map Nat.succ := by
    rw [List.range_succ_eq_map]
  rw [h]
  simp

theorem getLast?_map_range (f : ℕ → α) (n : ℕ) :
    (((List.range (n + 1)).map f)).getLast? = some (f n) := by
  rw [List.range_succ, List.map_append]
  simp

/-- C4: a `sample_loop` call with `num_steps = N >= 1` returns a trajectory
of exactly `N + 1` recorded states, whose first element is the initial
batch and whose last element is the terminal estimate, the batch of states
after `N` Euler steps. -/
theorem sample_loop_traj_invariant (v : Vec → ℚ → Vec) (N : ℕ) (b : Batch)
    (_hN : 1 ≤ N) :
    (batchTraj v N b).length = N + 1 ∧
    (batchTraj v N b).head? = some b ∧
    (batchTraj v N b).getLast? = some (b.map (fun x => eulerState v N x N)) := by
  refine ⟨by simp [batchTraj], ?_, ?_⟩
  · rw [batchTraj, head?_map_range]
    have hb : b.map (fun x => eulerState v N x 0) = b := by
      simp [eulerState]
    rw [hb]
  · rw [batchTraj, getLast?_map_range]

/-- Witness for C4 on a concrete one-step call. -/
theorem sample_loop_traj_invariant_witness :
    (batchTraj (fun _ _ => [(1 : ℚ)]) 1 [[(0 : ℚ)]]).length = 1 + 1 ∧
    (batchTraj (fun _ _ => [(1 : ℚ)]) 1 [[(0 : ℚ)]]).head? = some [[(0 : ℚ)]] ∧
    (batchTraj (fun _ _ => [(1 : ℚ)]) 1 [[(0 : ℚ)]]).getLast? =
      some ([[(0 : ℚ)]].map (fun x => eulerState (fun _ _ => [(1 : ℚ)]) 1 x 1)) :=
  sample_loop_traj_invariant (fun _ _ => [(1 : ℚ)]) 1 [[(0 : ℚ)]] (by decide)

/-- C1: if the velocity field is interpolation-exact for the coupling
`(x0, x1)` (it returns `x1 - x0` at every state and time), then the Euler
sampler with `num_steps = 1` started at `x0` produces the trajectory
`[x0, x0 + v(x0, 0) * 1]`, whose terminal state is exactly `x1`. -/
theorem one_step_exact (v : Vec → ℚ → Vec) (x0 x1 : Vec)
    (hlen : x0.length = x1.length)
    (hv : ∀ x t, v x t = vecSub x1 x0) :
    sampleLoopStates v 1 x0 =
      [x0, vecAdd x0 (vecSMul (1 / ((1 : ℕ) : ℚ)) (v x0 (((0 : ℕ) : ℚ) / ((1 : ℕ) : ℚ))))] ∧
    (sampleLoopStates v 1 x0).getLast? = some x1 := by
  have hstates : sampleLoopStates v 1 x0 =
      [x0, vecAdd x0 (vecSMul (1 / ((1 : ℕ) : ℚ)) (v x0 (((0 : ℕ) : ℚ) / ((1 : ℕ) : ℚ))))] := by
    simp [sampleLoopStates, List.range_succ, eulerState, eulerStep]
  refine ⟨hstates, ?_⟩
  rw [hstates]
  have hterm : vecAdd x0 (vecSMul (1 / ((1 : ℕ) : ℚ)) (v x0 (((0 : ℕ) : ℚ) / ((1 : ℕ) : ℚ)))) = x1 := by
    rw [hv]
    norm_num
    have hsmul : vecSMul 1 (vecSub x1 x0) = vecSub x1 x0 := by
      simp [vecSMul, vecSub]
    rw [hsmul]
    exact vecAdd_vecSub x0 x1 hlen
  rw [hterm]
  rfl

/-- Witness for C1 at a concrete coupling whose velocity field is the
constant interpolation derivative. -/
theorem one_step_exact_witness :
    sampleLoopStates (fun _ _ => vecSub [(4 : ℚ), 6] [1, 2]) 1 [(1 : ℚ), 2] =
      [[(1 : ℚ), 2],
       vecAdd [(1 : ℚ), 2] (vecSMul (1 / ((1 : ℕ) : ℚ))
         ((fun _ _ => vecSub [(4 : ℚ), 6] [1, 2]) [(1 : ℚ), 2] (((0 : ℕ) : ℚ) / ((1 : ℕ) : ℚ))))] ∧
    (sampleLoopStates (fun _ _ => vecSub [(4 : ℚ), 6] [1, 2]) 1 [(1 : ℚ), 2]).getLast? =
      some [4, 6] :=
  one_step_exact (fun _ _ => vecSub [(4 : ℚ), 6] [1, 2]) [(1 : ℚ), 2] [4, 6]
    (by decide) (fun _ _ => rfl)

/-- Errors of the core, from the spec's error taxonomy. -/
inductive CoreError where
  | shapeMismatch : CoreError
  | invalidConfiguration : CoreError
deriving DecidableEq

/-- Modelled from the spec: construction-time configuration of the
`EulerSampler` (the class is not in `src/`): an optional default
`num_steps` and an optional configured sample count `num_samples`. -/
structure EulerSampler where
  numStepsDefault : Option ℕ
  numSamplesConfig : Option ℕ

/-- Modelled from the spec: the full checked `sample_loop` operation.
`gen` is the seedable source-distribution generator (seed and count to a
fresh batch); the caller passes either an explicit initial batch `x0` or a
request `nFresh` to draw fresh points (mutually exclusive; neither is
allowed only when the sampler has a configured sample count); a per-call
`numSteps` overriding the construction-time default; and a seed.  All
configuration checks happen before the velocity model `v` is consulted. -/
def sample_loop (s : EulerSampler) (gen : ℕ → ℕ → Batch) (v : Vec → ℚ → Vec)
    (x0 : Option Batch) (nFresh : Option ℕ) (numSteps : Option ℕ) (seed : ℕ) :
    Except CoreError (List Batch) :=
  let N := numSteps.getD (s.numStepsDefault.getD 0)
  if N < 1 then .error .invalidConfiguration
  else
    match x0, nFresh with
    | some _, some _ => .error .invalidConfiguration
    | some b, none => .ok (batchTraj v N b)
    | none, some n => .ok (batchTraj v N (gen seed n))
    | none, none =>
      match s.numSamplesConfig with
      | some n => .ok (batchTraj v N (gen seed n))
      | none => .error .invalidConfiguration

/-- An invalid `sample_loop` configuration, from the spec: both an explicit
initial batch and a fresh-draw request; or neither while no sample count is
configured; or an effective `num_steps < 1`. -/
def badConfig (s : EulerSampler) (x0 : Option Batch) (nFresh : Option ℕ)
    (numSteps : Option ℕ) : Prop :=
  (x0.isSome ∧ nFresh.isSome) ∨
  (x0.isNone ∧ nFresh.isNone ∧ s.numSamplesConfig.isNone) ∨
  (numSteps.getD (s.numStepsDefault.getD 0) < 1)

instance (s : EulerSampler) (x0 : Option Batch) (nFresh : Option ℕ)
    (numSteps : Option ℕ) : Decidable (badConfig s x0 nFresh numSteps) := by
  unfold badConfig
  infer_instance

/-- C8: every invalid configuration of `sample_loop` (both an explicit
initial batch and a fresh-draw request, neither without a configured sample
count, or `num_steps < 1`) yields the `invalidConfiguration` error, and it
does so for every velocity model alike, so no model evaluation can have
occurred. -/
theorem sample_loop_config_errors (s : EulerSampler) (gen : ℕ → ℕ → Batch)
    (x0 : Option Batch) (nFresh : Option ℕ) (numSteps : Option ℕ) (seed : ℕ)
    (hbad : badConfig s x0 nFresh numSteps) :
    ∀ v : Vec → ℚ → Vec,
      sample_loop s gen v x0 nFresh numSteps seed = .error .invalidConfiguration := by
  intro v
  unfold sample_loop
  rcases hbad with hboth | hneither | hsteps
  · by_cases hN : numSteps.getD (s.numStepsDefault.getD 0) < 1
    · simp [hN]
    · simp only [hN, if_false]
      rcases x0 with _ | b
      · simp [Option.isSome] at hboth
      · rcases nFresh with _ | n
        · simp [Option.isSome] at hboth
        · rfl
  · by_cases hN : numSteps.getD (s.numStepsDefault.getD 0) < 1
    · simp [hN]
    · simp only [hN, if_false]
      rcases x0 with _ | b
      · rcases nFresh with _ | n
        · rcases hcfg : s.numSamplesConfig with _ | n
          · rfl
          · rw [hcfg] at hneither
            simp [Option.isNone] at hneither
        · simp [Option.isNone] at hneither
      · simp [Option.isNone] at hneither
  · simp [hsteps]

/-- Witness for C8: a sampler with no configured sample count, called with
neither an initial batch nor a fresh-draw request. -/
theorem sample_loop_config_errors_witness :
    sample_loop ⟨some 100, none⟩ (fun _ n => List.replicate n [(0 : ℚ)])
      (fun _ _ => [(0 : ℚ)]) none none none 0 = .error .invalidConfiguration :=
  sample_loop_config_errors ⟨some 100, none⟩ (fun _ n => List.replicate n [(0 : ℚ)])
    none none none 0 (Or.inr (Or.inl (by simp [Option.isNone])))
    (fun _ _ => [(0 : ℚ)])

/-- C10: the per-call `num_steps` overrides the construction-time value:
a sampler built with `num_steps = 100` invoked as
`sample_loop (num_steps = 1)` performs a single Euler step and returns a
trajectory with exactly two recorded states. -/
theorem sample_loop_num_steps_override (gen : ℕ → ℕ → Batch)
    (v : Vec → ℚ → Vec) (b : Batch) (cfg : Option ℕ) (seed : ℕ) :
    sample_loop ⟨some 100, cfg⟩ gen v (some b) none (some 1) seed =
      .ok [b, b.map (fun x => eulerStep v 1 0 x)] ∧
    (batchTraj v 1 b).length = 2 := by
  constructor
  · unfold sample_loop
    simp only [Option.getD_some]
    norm_num
    unfold batchTraj
    simp [List.range_succ, eulerState]
  · simp [batchTraj]

/-- C5: two `sample_loop` calls with identical seed, identical velocity
model parameters and identical inputs produce identical trajectories:
the outcome is a function of the seed, the parameters and the inputs. -/
theorem sample_loop_deterministic (s : EulerSampler) (gen : ℕ → ℕ → Batch)
    (vfam : List ℚ → Vec → ℚ → Vec) (p1 p2 : List ℚ) (seed1 seed2 : ℕ)
    (x0 : Option Batch) (nFresh : Option ℕ) (numSteps : Option ℕ)
    (hp : p1 = p2) (hs : seed1 = seed2) :
    sample_loop s gen (vfam p1) x0 nFresh numSteps seed1 =
      sample_loop s gen (vfam p2) x0 nFresh numSteps seed2 := by
  rw [hp, hs]

/-- Witness for C5 at a concrete sampler call. -/
theorem sample_loop_deterministic_witness :
    sample_loop ⟨some 2, none⟩ (fun _ n => List.replicate n [(0 : ℚ)])
      ((fun p _ _ => p) [(1 : ℚ)]) (some [[(0 : ℚ)]]) none none 7 =
    sample_loop ⟨some 2, none⟩ (fun _ n => List.replicate n [(0 : ℚ)])
      ((fun p _ _ => p) [(1 : ℚ)]) (some [[(0 : ℚ)]]) none none 7 :=
  sample_loop_deterministic ⟨some 2, none⟩ (fun _ n => List.replicate n [(0 : ℚ)])
    (fun p _ _ => p) [(1 : ℚ)] [(1 : ℚ)] 7 7 (some [[(0 : ℚ)]]) none none rfl rfl

/-- Size agreement between the optional labels and the batch size. -/
def labelsMatch (labels : Option (List ℕ)) (n : ℕ) : Bool :=
  match labels with
  | none => true
  | some ls => ls.length == n

/-- The label passed to the velocity model for sample `i`. -/
def labelAt (labels : Option (List ℕ)) (i : ℕ) : Option ℕ :=
  labels.map (fun ls => ls.getD i 0)

/-- Modelled from the spec: the per-sample loss term of `get_loss`:
interpolate, query the velocity model, take the squared L2 error against
the target derivative, and apply the time weight. -/
def lossPerSample (v : Vec → ℚ → Option ℕ → Vec) (w : ℚ → ℚ) (t : ℚ)
    (x0 x1 : Vec) (c : Option ℕ) : ℚ :=
  w t * sqNorm (vecSub (v (interpStraight t x0 x1).1 t c) (interpStraight t x0 x1).2)

/-- Modelled from the spec: the `get_loss` computation of the library
(`RectifiedFlow.get_loss` is not in `src/`; the notebook only calls it).
`tdraw i` is the time drawn for sample `i` by the seedable generator.
Shapes are checked first; then one interpolation, model query, squared
error and weight per sample, reduced by mean. -/
def get_loss (v : Vec → ℚ → Option ℕ → Vec) (w : ℚ → ℚ) (tdraw : ℕ → ℚ)
    (x0s x1s : Batch) (labels : Option (List ℕ)) : Except CoreError ℚ :=
  if x0s.length = x1s.length ∧ labelsMatch labels x0s.length = true then
    .ok ((((List.range x0s.length).map (fun i =>
      lossPerSample v w (tdraw i) (x0s.getD i []) (x1s.getD i [])
        (labelAt labels i))).sum) / (x0s.length : ℚ))
  else .error .shapeMismatch

theorem sum_map_range (f : ℕ → ℚ) :
    ∀ n : ℕ, ((List.range n).map f).sum = ∑ i in Finset.range n, f i := by
  intro n
  induction n with
  | zero => simp
  | succ n ih =>
    rw [List.range_succ, List.map_append, List.sum_append, Finset.sum_range_succ, ih]
    simp

/-- C6: on shape-valid batches, `get_loss` returns exactly the mean over the
batch of `w(t_i) * norm_sq(v(Xt_i, t_i, c_i) - (X1_i - X0_i))` with
`Xt_i = t_i * X1_i + (1 - t_i) * X0_i`: one uniform time draw per sample,
interpolation, a velocity-model query, a per-sample squared L2 error, the
time weight, and a mean reduction, with no other state entering. -/
theorem get_loss_spec (v : Vec → ℚ → Option ℕ → Vec) (w : ℚ → ℚ)
    (tdraw : ℕ → ℚ) (x0s x1s : Batch) (labels : Option (List ℕ))
    (hlen : x0s.length = x1s.length)
    (hlab : labelsMatch labels x0s.length = true) :
    get_loss v w tdraw x0s x1s labels =
      .ok ((∑ i in Finset.range x0s.length,
        w (tdraw i) *
          sqNorm (vecSub
            (v (straight_xt (tdraw i) (x0s.getD i []) (x1s.getD i []))
              (tdraw i) (labelAt labels i))
            (vecSub (x1s.getD i []) (x0s.getD i [])))) / (x0s.length : ℚ)) := by
  unfold get_loss
  rw [if_pos ⟨hlen, hlab⟩, sum_map_range]
  have hterm : ∀ i ∈ Finset.range x0s.length,
      lossPerSample v w (tdraw i) (x0s.getD i []) (x1s.getD i []) (labelAt labels i) =
      w (tdraw i) *
        sqNorm (vecSub
          (v (straight_xt (tdraw i) (x0s.getD i []) (x1s.getD i []))
            (tdraw i) (labelAt labels i))
          (vecSub (x1s.getD i []) (x0s.getD i []))) := by
    intro i _
    unfold lossPerSample
    rw [interpStraight_snd]
    rfl
  rw [Finset.sum_congr rfl hterm]

/-- Witness for C6 on a concrete two-sample batch. -/
theorem get_loss_spec_witness :
    get_loss (fun x _ _ => x) (fun _ => 1) (fun _ => 1 / 2)
      [[(0 : ℚ)], [2]] [[(2 : ℚ)], [4]] none =
      .ok ((∑ i in Finset.range ([[(0 : ℚ)], [2]] : Batch).length,
        (fun _ : ℚ => (1 : ℚ)) ((fun _ : ℕ => (1 : ℚ) / 2) i) *
          sqNorm (vecSub
            ((fun x _ _ => x)
              (straight_xt ((fun _ : ℕ => (1 : ℚ) / 2) i)
                (([[(0 : ℚ)], [2]] : Batch).getD i [])
                (([[(2 : ℚ)], [4]] : Batch).getD i []))
              ((fun _ : ℕ => (1 : ℚ) / 2) i) (labelAt none i))
            (vecSub (([[(2 : ℚ)], [4]] : Batch).getD i [])
              (([[(0 : ℚ)], [2]] : Batch).getD i [])))) /
        (([[(0 : ℚ)], [2]] : Batch).length : ℚ)) :=
  get_loss_spec (fun x _ _ => x) (fun _ => 1) (fun _ => 1 / 2)
    [[(0 : ℚ)], [2]] [[(2 : ℚ)], [4]] none (by decide) (by decide)

/-- C7: a `get_loss` call whose `x0` batch and `x1` batch have different
sample counts fails with the shape-mismatch error, and it does so for every
velocity model alike, so no partial computation, truncation or broadcast
across the mismatched counts can have occurred. -/
theorem get_loss_shape_mismatch (w : ℚ → ℚ) (tdraw : ℕ → ℚ)
    (x0s x1s : Batch) (labels : Option (List ℕ))
    (hmis : x0s.length ≠ x1s.length) :
    ∀ v : Vec → ℚ → Option ℕ → Vec,
      get_loss v w tdraw x0s x1s labels = .error .shapeMismatch := by
  intro v
  unfold get_loss
  rw [if_neg]
  intro hcontra
  exact hmis hcontra.1

/-- Witness for C7 with batch sizes 10 and 8. -/
theorem get_loss_shape_mismatch_witness :
    get_loss (fun x _ _ => x) (fun _ => 1) (fun _ => 0)
      (List.replicate 10 [(0 : ℚ)]) (List.replicate 8 [(0 : ℚ)]) none =
      .error .shapeMismatch :=
  get_loss_shape_mismatch (fun _ => 1) (fun _ => 0)
    (List.replicate 10 [(0 : ℚ)]) (List.replicate 8 [(0 : ℚ)]) none
    (by simp) (fun x _ _ => x)

/-- Modelled from the spec and the notebook reflow cell
`Z_1 = euler_sampler.sample_loop(x_0=Z_0, num_steps=1000).trajectories[-1]`:
the reflow targets are the terminal batch of the Euler trajectory started
at the drawn sources, all intermediate states discarded. -/
def reflowTargets (v : Vec → ℚ → Vec) (N : ℕ) (z0 : Batch) : Batch :=
  ((batchTraj v N z0).getLast?).getD []

/-- C9: each reflow target is exactly the terminal Euler state of its
source: `reflowTargets` is the pointwise image of the source batch under
the `N`-step Euler map, so equal sources always receive equal targets
(each `Z0` maps to exactly one `Z1`). -/
theorem reflow_coupling (v : Vec → ℚ → Vec) (N : ℕ) (z0 : Batch) :
    reflowTargets v N z0 = z0.map (fun z => eulerState v N z N) ∧
    ∀ i j : ℕ, z0[i]? = z0[j]? →
      (reflowTargets v N z0)[i]? = (reflowTargets v N z0)[j]? := by
  have hmap : reflowTargets v N z0 = z0.map (fun z => eulerState v N z N) := by
    unfold reflowTargets batchTraj
    rw [getLast?_map_range]
    rfl
  refine ⟨hmap, fun i j hij => ?_⟩
  rw [hmap, List.getElem?_map, List.getElem?_map, hij]

/-- Witness for C9 on a concrete source batch with two equal sources. -/
theorem reflow_coupling_witness :
    reflowTargets (fun x _ => x) 1 [[(1 : ℚ)], [1]] =
      ([[(1 : ℚ)], [1]] : Batch).map (fun z => eulerState (fun x _ => x) 1 z 1) ∧
    (reflowTargets (fun x _ => x) 1 [[(1 : ℚ)], [1]])[0]? =
      (reflowTargets (fun x _ => x) 1 [[(1 : ℚ)], [1]])[1]? :=
  ⟨(reflow_coupling (fun x _ => x) 1 [[(1 : ℚ)], [1]]).1,
   (reflow_coupling (fun x _ => x) 1 [[(1 : ℚ)], [1]]).2 0 1 rfl⟩

end RectFlow
